import Mathlib

/-!
Verification of the neuroconv / nwb-conversion-tools core against its spec.

The development shallowly embeds the Python source:
* `Json` models Python dict/list/scalar values (insertion-ordered association
  lists for dicts).
* `dict_deep_update` models the metadata merger (`utils.dict_deep_update`,
  modelled from the spec since the utility module is not part of the provided
  sources).
* `NWBConverter` orchestration (`nwbconverter.py`) is embedded as
  `converterInit` / `runConversion` over an abstract interface model that
  records a trace of interface invocations and resource events.
* The timestamp-alignment mixin (`basedatainterface.py`) is embedded over
  exact rational timestamps.
* `signal_processing.py` is embedded over rational traces.
-/

/-- A model of Python JSON-like values: dicts are insertion-ordered
association lists, mirroring Python `dict` semantics. -/
inductive Json where
  | null : Json
  | bool : Bool → Json
  | num : Int → Json
  | str : String → Json
  | arr : List Json → Json
  | obj : List (String × Json) → Json

namespace Json

/-- `d[k]` lookup on an object; `none` models a Python `KeyError`/`.get` miss. -/
def get? : Json → String → Option Json
  | .obj kvs, k => kvs.lookup k
  | _, _ => none

/-- Whether a value is a mapping (`isinstance(v, Mapping)` in the source). -/
def isObj : Json → Bool
  | .obj _ => true
  | _ => false

end Json

mutual

/-- Modelled from the spec (§4.2 Metadata Merger; `utils.dict_deep_update` is
not among the provided sources): for each key of the override, if both values
are mappings, recurse; otherwise the override value replaces the base value
wholesale.  Keys only in the base are kept; new override keys are appended in
override order, matching Python `dict` update ordering. -/
def dict_deep_update : Json → Json → Json
  | .obj base, .obj override =>
      .obj (deepUpdateEntries base override ++
        override.filter (fun kv => (base.lookup kv.1).isNone))
  | _, o => o

def deepUpdateEntries : List (String × Json) → List (String × Json) →
    List (String × Json)
  | [], _ => []
  | (k, v) :: rest, override =>
      (k, match override.lookup k with
          | some w => dict_deep_update v w
          | none => v) :: deepUpdateEntries rest override

end

/-! ## Timestamp alignment (`basedatainterface.py`) -/

/-- The mutable timestamp state of a data interface.  Timestamps are modelled
as exact rationals (the Python source uses numpy float arrays). -/
structure TimestampedInterface where
  timestamps : List ℚ

/-- `BaseDataInterface.get_timestamps` — returns the current (possibly
already aligned) timestamps. -/
def get_timestamps (s : TimestampedInterface) : List ℚ :=
  s.timestamps

/-- `align_timestamps(aligned_timestamps)` — replaces the interface's current
timestamps outright (abstract in `basedatainterface.py`; the replacement
semantics is the documented contract every implementation must satisfy). -/
def align_timestamps (s : TimestampedInterface) (aligned : List ℚ) :
    TimestampedInterface :=
  { s with timestamps := aligned }

/-- `BaseDataInterface.align_starting_time` (line 108):
`self.align_timestamps(aligned_timestamps=self.get_timestamps() + starting_time)`
where `+` is numpy's elementwise broadcast addition. -/
def align_starting_time (s : TimestampedInterface) (starting_time : ℚ) :
    TimestampedInterface :=
  align_timestamps s ((get_timestamps s).map (· + starting_time))

/-- `numpy.interp` on a list of `(xp, fp)` sample pairs: piecewise-linear
interpolation with clamp-to-boundary extrapolation (numpy is an external
collaborator; this is its documented semantics for increasing `xp`). -/
def npInterp (x : ℚ) : List (ℚ × ℚ) → ℚ
  | [] => 0
  | [(_, fp0)] => fp0
  | (x0, f0) :: (x1, f1) :: rest =>
      if x ≤ x0 then f0
      else if x ≤ x1 then f0 + (x - x0) * (f1 - f0) / (x1 - x0)
      else npInterp x ((x1, f1) :: rest)

/-- `BaseDataInterface.align_by_interpolation` (lines 131-133):
`self.align_timestamps(np.interp(x=self.get_timestamps(),
xp=unaligned_timestamps, fp=aligned_timestamps))`. -/
def align_by_interpolation (s : TimestampedInterface)
    (unaligned_timestamps aligned_timestamps : List ℚ) :
    TimestampedInterface :=
  align_timestamps s
    ((get_timestamps s).map
      (fun x => npInterp x (unaligned_timestamps.zip aligned_timestamps)))

/-! ## TTL signal processing (`tools/signal_processing.py`) -/

/-- A numpy ndarray model: a shape and the row-major flattened data. -/
structure NdArray where
  shape : List Nat
  data : List ℚ

/-- `np.sign` on a scalar. -/
def npSign (x : ℚ) : Int :=
  if x < 0 then -1 else if x = 0 then 0 else 1

/-- `np.diff`: adjacent differences `a[i+1] - a[i]`. -/
def npDiff : List Int → List Int
  | a :: b :: rest => (b - a) :: npDiff (b :: rest)
  | _ => []

/-- `np.mean` of the trace (numpy averages the flattened data). -/
def npMean (l : List ℚ) : ℚ :=
  l.sum / (l.length : ℚ)

/-- `np.where(d ⋈ 0)[0]`: the (sorted) indices where the predicate holds. -/
def npWhere (p : Int → Bool) (d : List Int) : List Nat :=
  (List.range d.length).filter (fun j => p (d.getD j 0))

/-- `get_rising_frames_from_ttl` (signal_processing.py lines 10-37): checks
`math.prod(trace.shape[1:]) != 1`, flattens, thresholds at the mean by
default, takes signs, adjacent differences, and returns the indices of
positive differences shifted by one. -/
def get_rising_frames_from_ttl (trace : NdArray) (threshold : Option ℚ) :
    Except String (List Nat) :=
  if (trace.shape.drop 1).prod ≠ 1 then
    .error "This function expects a one-dimensional array!"
  else
    let flattened_trace := trace.data
    let thr := threshold.getD (npMean trace.data)
    let sign := flattened_trace.map (fun x => npSign (x - thr))
    let diff := npDiff sign
    .ok ((npWhere (fun d => 0 < d) diff).map (· + 1))

/-- `get_falling_frames_from_ttl` (signal_processing.py lines 40-67): same as
the rising variant but selecting negative differences. -/
def get_falling_frames_from_ttl (trace : NdArray) (threshold : Option ℚ) :
    Except String (List Nat) :=
  if (trace.shape.drop 1).prod ≠ 1 then
    .error "This function expects a one-dimensional array!"
  else
    let flattened_trace := trace.data
    let thr := threshold.getD (npMean trace.data)
    let sign := flattened_trace.map (fun x => npSign (x - thr))
    let diff := npDiff sign
    .ok ((npWhere (fun d => d < 0) diff).map (· + 1))

/-! ## Default interface metadata and the converter metadata merge -/

/-- `BaseDataInterface.get_metadata` (basedatainterface.py lines 39-48).  The
`identifier` argument is the value of `str(uuid.uuid4())` drawn at this call:
`uuid.uuid4()` produces a fresh unique identifier on every invocation, so two
successive calls receive distinct `identifier` arguments. -/
def base_get_metadata (identifier : String) : Json :=
  .obj [("NWBFile", .obj [
    ("session_description", .str "Auto-generated by neuroconv"),
    ("identifier", .str identifier)])]

/-- Modelled from the spec: `get_default_nwbfile_metadata`
(`tools.nwb_helpers`, not among the provided sources) — the process-wide
default NWBFile/session skeleton, treated per spec §9 as an explicit
immutable configuration value. -/
def get_default_nwbfile_metadata : Json :=
  .obj [("NWBFile", .obj [("session_description", .str "no description")])]

/-- `NWBConverter.get_metadata` (nwbconverter.py lines 92-98) for a converter
whose data interfaces use the default `BaseDataInterface.get_metadata`: deep
merges each interface's metadata into the default skeleton, in registration
order.  `identifiers` lists the `uuid.uuid4()` value drawn by each
interface's `get_metadata` call during this converter call. -/
def converter_get_metadata (identifiers : List String) : Json :=
  identifiers.foldl
    (fun metadata u => dict_deep_update metadata (base_get_metadata u))
    get_default_nwbfile_metadata

/-! ## `SpikeGLXNIDQInterface.get_metadata` (spikeglxnidqinterface.py 67-90) -/

/-- `SpikeGLXNIDQInterface.get_metadata`.  `super_metadata` is the result of
`super().get_metadata()` (line 68; the parent chain leaves the provided
sources at `BaseRecordingExtractorInterface`, so it is a parameter, and a
raising parent propagates); `session_start_time` is the value of
`get_session_start_time(self.meta)` (line 69, helper not among the provided
sources; `none` models a falsy result); `meta` is `self.meta`.  Line 74
rebinds `metadata = dict(Ecephys=dict())`, line 79 `pop` raises `KeyError`
when `"fileCreateTime"` is absent, and lines 85/87 index
`metadata["Synchronization"]`, which is absent from the rebound dict. -/
def nidq_get_metadata (super_metadata : Except String Json)
    (session_start_time : Option Json) (meta : List (String × Json)) :
    Except String Json :=
  match super_metadata with
  | .error e => .error e
  | .ok parent_metadata =>
      let metadata := match session_start_time with
        | some t =>
            dict_deep_update parent_metadata
              (.obj [("NWBFile", .obj [("session_start_time", t)])])
        | none => parent_metadata
      let metadata := Json.obj [("Ecephys", Json.obj [])]
      let device_key := "niDev1ProductName"
      if (meta.lookup device_key).isSome then
        if (meta.lookup "fileCreateTime").isNone then
          .error "KeyError: fileCreateTime"
        else
          match metadata.get? "Synchronization" with
          | none => .error "KeyError: Synchronization"
          | some _ => .error "TypeError: append() takes no keyword arguments"
      else
        match metadata.get? "Synchronization" with
        | none => .error "KeyError: Synchronization"
        | some _ => .ok metadata

/-! ## Converter orchestration (`nwbconverter.py`) -/

/-- The error classes surfaced by the converter orchestration. -/
inductive ConvError where
  | assertionError
  | sourceValidationError
  | metadataValidationError
  | optionsValidationError
  | interfaceError (msg : String)

/-- An in-memory NWB container: what it was created from plus the writes the
interfaces performed into it. -/
structure NWBFileModel where
  createdFrom : Json
  writes : List (String × Json)

/-- An instantiated data interface, as the converter sees it: its default
conversion options (`get_conversion_options`) and its `run_conversion`
action on the shared container (abstract; may raise). -/
structure DataInterface where
  conversionOptions : Json
  run : NWBFileModel → Json → Json → Except String NWBFileModel

/-- The state of a constructed `NWBConverter` relevant to `run_conversion`:
the insertion-ordered `data_interface_objects`, what `self.get_metadata()`
returns at call time, and the two `jsonschema.validate` checks (external
library, modelled as predicates). -/
structure ConverterModel where
  interfaces : List (String × DataInterface)
  defaultMetadata : Json
  metadataValid : Json → Bool
  optionsValid : Json → Bool

/-- The observable outcome of one `run_conversion` call: the returned value
(`nwbfile` variable at line 191), the trace of interface invocations with
the options each received, and whether the output resource was acquired and
released. -/
structure RunResult where
  ret : Except ConvError (Option NWBFileModel)
  calls : List (String × Json)
  acquired : Bool
  released : Bool

/-- Modelled from the spec: `make_nwbfile_from_metadata`
(`tools.nwb_helpers`, not among the provided sources) — builds a fresh
in-memory container from the metadata document. -/
def make_nwbfile_from_metadata (metadata : Json) : NWBFileModel :=
  ⟨metadata, []⟩

/-- Modelled from the spec: `make_or_load_nwbfile` (`tools.nwb_helpers`, not
among the provided sources) — scoped acquisition of the output file: creates
a fresh container from metadata when the path does not exist or overwrite
was requested, else loads the existing file for append; release is
guaranteed on every exit path (Python `with` statement, spec §4.4 step 4). -/
def make_or_load_nwbfile (pathExists overwrite : Bool) (metadata : Json)
    (existing : NWBFileModel) : NWBFileModel :=
  if pathExists && !overwrite then existing
  else make_nwbfile_from_metadata metadata

/-- The interface loop of `run_conversion` (lines 180-183 / 189-190): call
each interface in registration order with the shared container, the
metadata, and `optsFor name`; stop at the first raising interface.  Returns
the loop outcome and the invocation trace. -/
def run_conversion_loop : List (String × DataInterface) → NWBFileModel →
    Json → (String → Json) → Except String NWBFileModel × List (String × Json)
  | [], nwb, _, _ => (.ok nwb, [])
  | (n, i) :: rest, nwb, metadata, optsFor =>
      let o := optsFor n
      match i.run nwb metadata o with
      | .error e => (.error e, [(n, o)])
      | .ok nwb' =>
          let (r, t) := run_conversion_loop rest nwb' metadata optsFor
          (r, (n, o) :: t)

/-- `NWBConverter.run_conversion` (nwbconverter.py lines 128-191).
`pathExists` models `Path(nwbfile_path).exists()` and `existing` the on-disk
file loaded in append mode.  Line 157-161 is the assert; 163-165 metadata
defaulting and validation; 167-171 conversion-option merging and validation;
173-185 the persist branch (`with make_or_load_nwbfile(...)`, which releases
on every exit path, then interface loop over the merged
`conversion_options_to_run`); 186-190 the in-memory branch, which passes the
raw caller `conversion_options`; 191 returns the `nwbfile` variable. -/
def run_conversion (c : ConverterModel) (nwbfile_path : Option String)
    (metadata : Option Json) (nwbfile : Option NWBFileModel)
    (overwrite save_to_file : Bool) (conversion_options : Option Json)
    (pathExists : Bool) (existing : NWBFileModel) : RunResult :=
  if !((!save_to_file && nwbfile_path.isNone) || nwbfile.isNone) then
    ⟨.error .assertionError, [], false, false⟩
  else
    let metadata := metadata.getD c.defaultMetadata
    if !(c.metadataValid metadata) then
      ⟨.error .metadataValidationError, [], false, false⟩
    else
      let conversion_options := conversion_options.getD (.obj [])
      let default_conversion_options :=
        Json.obj (c.interfaces.map (fun p => (p.1, p.2.conversionOptions)))
      let conversion_options_to_run :=
        dict_deep_update default_conversion_options conversion_options
      if !(c.optionsValid conversion_options_to_run) then
        ⟨.error .optionsValidationError, [], false, false⟩
      else if save_to_file then
        let nwbfile_out := make_or_load_nwbfile pathExists overwrite metadata existing
        match run_conversion_loop c.interfaces nwbfile_out metadata
            (fun n => (conversion_options_to_run.get? n).getD (.obj [])) with
        | (.error e, calls) => ⟨.error (.interfaceError e), calls, true, true⟩
        | (.ok _, calls) => ⟨.ok nwbfile, calls, true, true⟩
      else
        let nwb0 := nwbfile.getD (make_nwbfile_from_metadata metadata)
        match run_conversion_loop c.interfaces nwb0 metadata
            (fun n => (conversion_options.get? n).getD (.obj [])) with
        | (.error e, calls) => ⟨.error (.interfaceError e), calls, false, false⟩
        | (.ok nwbFinal, calls) => ⟨.ok (some nwbFinal), calls, false, false⟩

/-- `NWBConverter.__init__` (nwbconverter.py lines 63-71): validates the
source descriptor against the compiled source schema (`jsonschema.validate`,
external, modelled as the `validate` predicate; lines 123-126) and, only on
success, instantiates one data interface per registered class whose name
appears in `source_data`, in class-map order. -/
def converter_init (classes : List (String × (Json → DataInterface)))
    (validate : Json → Bool) (source_data : List (String × Json)) :
    Except ConvError (List (String × DataInterface)) :=
  if !(validate (.obj source_data)) then .error .sourceValidationError
  else
    .ok (classes.filterMap (fun p =>
      (source_data.lookup p.1).map (fun args => (p.1, p.2 args))))

/-! ## Concrete interfaces and converters used in closed theorems -/

/-- A spy interface: default options `{"stub_test": true}`, records each
invocation's options into the container. -/
def spyInterface : DataInterface :=
  ⟨.obj [("stub_test", .bool true)],
   fun nwb _ o => .ok ⟨nwb.createdFrom, nwb.writes ++ [("Spy", o)]⟩⟩

/-- A converter holding the single spy interface, with passing validators. -/
def spyConverter : ConverterModel :=
  ⟨[("Spy", spyInterface)], .obj [], fun _ => true, fun _ => true⟩

/-- An always-succeeding interface that logs its invocation. -/
def okInterface : DataInterface :=
  ⟨.obj [], fun nwb _ o => .ok ⟨nwb.createdFrom, nwb.writes ++ [("ok", o)]⟩⟩

/-- An interface whose `run_conversion` always raises. -/
def failInterface : DataInterface :=
  ⟨.obj [], fun _ _ _ => .error "boom"⟩

/-- A three-interface converter whose second interface raises. -/
def midFailConverter : ConverterModel :=
  ⟨[("A", okInterface), ("B", failInterface), ("C", okInterface)],
   .obj [], fun _ => true, fun _ => true⟩

/-! ## Helper lemmas -/

lemma npInterp_head_clamp (x x0 f0 : ℚ) (pairs : List (ℚ × ℚ)) (h : x ≤ x0) :
    npInterp x ((x0, f0) :: pairs) = f0 := by
  cases pairs with
  | nil => rfl
  | cons q rest =>
      obtain ⟨x1, f1⟩ := q
      simp only [npInterp, if_pos h]

lemma npInterp_beyond (x : ℚ) :
    ∀ (pairs : List (ℚ × ℚ)) (hne : pairs ≠ [])
      (_ : ∀ p ∈ pairs, p.1 < x), npInterp x pairs = (pairs.getLast hne).2 := by
  intro pairs
  induction pairs with
  | nil => intro hne _; exact absurd rfl hne
  | cons p rest ih =>
      intro hne h
      obtain ⟨x0, f0⟩ := p
      cases rest with
      | nil => rfl
      | cons q rest' =>
          obtain ⟨x1, f1⟩ := q
          have h0 : ¬x ≤ x0 := not_le.mpr (h (x0, f0) (by simp))
          have h1 : ¬x ≤ x1 := not_le.mpr (h (x1, f1) (by simp))
          have step : npInterp x ((x0, f0) :: (x1, f1) :: rest') =
              npInterp x ((x1, f1) :: rest') := by
            simp only [npInterp, if_neg h0, if_neg h1]
          rw [step, List.getLast_cons (by simp)]
          exact ih (by simp) (fun p hp => h p (List.mem_cons_of_mem _ hp))

lemma npDiff_length (l : List Int) : (npDiff l).length = l.length - 1 := by
  induction l with
  | nil => rfl
  | cons a t ih =>
      cases t with
      | nil => rfl
      | cons b rest =>
          simp only [npDiff, List.length_cons] at ih ⊢
          omega

lemma mem_npWhere {p : Int → Bool} {d : List Int} {j : Nat}
    (h : j ∈ npWhere p d) : j < d.length := by
  have := List.mem_filter.mp h
  exact List.mem_range.mp this.1

lemma npWhere_pairwise (p : Int → Bool) (d : List Int) :
    (npWhere p d).Pairwise (· < ·) :=
  (List.pairwise_lt_range _).filter _

lemma npDiff_all_zero {l : List Int}
    (h : ∀ x ∈ l, ∀ y ∈ l, x = y) : ∀ d ∈ npDiff l, d = 0 := by
  induction l with
  | nil => intro d hd; simp [npDiff] at hd
  | cons a t ih =>
      cases t with
      | nil => intro d hd; simp [npDiff] at hd
      | cons b rest =>
          intro d hd
          simp only [npDiff, List.mem_cons] at hd
          rcases hd with h1 | h2
          · have hab : a = b := h a (by simp) b (by simp)
            omega
          · exact ih (fun x hx y hy =>
              h x (List.mem_cons_of_mem _ hx) y (List.mem_cons_of_mem _ hy)) d h2

lemma npWhere_all_zero {p : Int → Bool} (hp : p 0 = false) {d : List Int}
    (h : ∀ x ∈ d, x = 0) : npWhere p d = [] := by
  rw [npWhere, List.filter_eq_nil_iff]
  intro j hj
  have hjlt : j < d.length := List.mem_range.mp hj
  have : d.getD j 0 = 0 := by
    rw [List.getD_eq_getElem _ _ hjlt]
    exact h _ (List.getElem_mem _)
  rw [this, hp]
  simp

lemma whereFrames_bounds {p : Int → Bool} {d : List Int} {n : Nat}
    (hlen : d.length = n - 1) :
    (∀ i ∈ (npWhere p d).map (· + 1), 1 ≤ i ∧ i ≤ n - 1) ∧
      ((npWhere p d).map (· + 1)).Pairwise (· < ·) := by
  constructor
  · intro i hi
    obtain ⟨j, hj, rfl⟩ := List.mem_map.mp hi
    have := mem_npWhere hj
    omega
  · rw [List.pairwise_map]
    exact (npWhere_pairwise p d).imp (fun hab => by omega)

/-! ## Claim theorems: timestamp alignment -/

/-- C8: for every interface and offset, `align_starting_time(offset)` is the
equation `align_timestamps(get_timestamps() + offset)` — each current
timestamp is shifted by the constant offset; in particular, on an interface
whose current timestamps are `[0,1,2]`, `align_starting_time(5)` makes
`get_timestamps()` return `[5,6,7]`. -/
theorem align_starting_time_spec :
    (∀ (s : TimestampedInterface) (offset : ℚ),
      align_starting_time s offset =
        align_timestamps s ((get_timestamps s).map (· + offset))) ∧
    get_timestamps (align_starting_time ⟨[0, 1, 2]⟩ 5) = [5, 6, 7] :=
  ⟨fun _ _ => rfl,
   by norm_num [get_timestamps, align_starting_time, align_timestamps]⟩

/-- C9: `align_by_interpolation(unaligned, aligned)` replaces the
interface's timestamps with their piecewise-linear interpolation through the
reference pairs, clamping to the boundary values outside the reference
range; in particular with `unaligned=[0,10]` and `aligned=[100,110]`, a
current timestamp of `5` maps to `105`. -/
theorem align_by_interpolation_spec :
    (∀ (s : TimestampedInterface) (u a : List ℚ),
      align_by_interpolation s u a =
        align_timestamps s
          ((get_timestamps s).map (fun x => npInterp x (u.zip a)))) ∧
    (∀ (x : ℚ) (pairs : List (ℚ × ℚ)) (hne : pairs ≠ []),
      (x ≤ (pairs.head hne).1 → npInterp x pairs = (pairs.head hne).2) ∧
      ((∀ p ∈ pairs, p.1 < x) → npInterp x pairs = (pairs.getLast hne).2)) ∧
    get_timestamps (align_by_interpolation ⟨[5]⟩ [0, 10] [100, 110]) =
      [105] := by
  refine ⟨fun _ _ _ => rfl, ?_,
    by norm_num [get_timestamps, align_by_interpolation, align_timestamps,
      npInterp]⟩
  intro x pairs hne
  constructor
  · intro hx
    cases pairs with
    | nil => exact absurd rfl hne
    | cons p rest =>
        obtain ⟨x0, f0⟩ := p
        exact npInterp_head_clamp x x0 f0 rest hx
  · exact npInterp_beyond x pairs hne

/-- Witness for C9: the clamp conjuncts evaluated on the reference pairs
`[(0,100),(10,110)]` at out-of-range points `-1` and `11`. -/
theorem align_by_interpolation_spec_witness :
    npInterp (-1) [((0 : ℚ), (100 : ℚ)), (10, 110)] = 100 ∧
    npInterp 11 [((0 : ℚ), (100 : ℚ)), (10, 110)] = 110 :=
  ⟨(align_by_interpolation_spec.2.1 (-1) [(0, 100), (10, 110)]
      (by simp)).1 (by norm_num),
   (align_by_interpolation_spec.2.1 11 [(0, 100), (10, 110)]
      (by simp)).2 (by
        simp only [List.mem_cons, List.not_mem_nil, or_false]
        rintro p (rfl | rfl) <;> norm_num)⟩

/-! ## Claim theorem: TTL rising/falling frames -/

/-- C10: for `get_rising_frames_from_ttl` and `get_falling_frames_from_ttl`
on a (well-formed, nonempty-shaped) trace whose trailing dimensions multiply
to 1: every returned frame index `i` satisfies `1 ≤ i ≤ len(trace) - 1`,
the returned indices are strictly increasing, and for a constant trace the
result is empty; for any trace whose trailing dimensions multiply to a value
other than 1, both functions raise a `ValueError`. -/
theorem ttl_frames_spec :
    ∀ (trace : NdArray) (threshold : Option ℚ),
      ((trace.shape.drop 1).prod = 1 →
        trace.data.length = trace.shape.prod →
        trace.shape ≠ [] →
        ∀ frames,
          (get_rising_frames_from_ttl trace threshold = .ok frames ∨
            get_falling_frames_from_ttl trace threshold = .ok frames) →
          (∀ i ∈ frames, 1 ≤ i ∧ i ≤ trace.shape.headD 0 - 1) ∧
            frames.Pairwise (· < ·)) ∧
      ((trace.shape.drop 1).prod = 1 →
        (∀ x ∈ trace.data, ∀ y ∈ trace.data, x = y) →
        get_rising_frames_from_ttl trace threshold = .ok [] ∧
          get_falling_frames_from_ttl trace threshold = .ok []) ∧
      ((trace.shape.drop 1).prod ≠ 1 →
        (∃ e, get_rising_frames_from_ttl trace threshold = .error e) ∧
          ∃ e, get_falling_frames_from_ttl trace threshold = .error e) := by
  intro trace threshold
  refine ⟨?_, ?_, ?_⟩
  · intro hsh hw hne frames hok
    have hnot : ¬(trace.shape.drop 1).prod ≠ 1 := by omega
    have hhead : trace.shape.headD 0 = trace.data.length := by
      cases hs : trace.shape with
      | nil => exact absurd hs hne
      | cons h t =>
          rw [hs] at hsh hw
          simp only [List.drop_succ_cons, List.drop_zero] at hsh
          rw [List.prod_cons, hsh, mul_one] at hw
          simp [hw]
    have hlen : ∀ thr, (npDiff (trace.data.map
        (fun x => npSign (x - thr)))).length = trace.data.length - 1 := by
      intro thr
      rw [npDiff_length, List.length_map]
    rcases hok with hok | hok
    · rw [get_rising_frames_from_ttl, if_neg hnot] at hok
      obtain rfl := Except.ok.inj hok
      rw [hhead]
      exact whereFrames_bounds (hlen _)
    · rw [get_falling_frames_from_ttl, if_neg hnot] at hok
      obtain rfl := Except.ok.inj hok
      rw [hhead]
      exact whereFrames_bounds (hlen _)
  · intro hsh hconst
    have hnot : ¬(trace.shape.drop 1).prod ≠ 1 := by omega
    have hsigns : ∀ thr, ∀ u ∈ trace.data.map (fun x => npSign (x - thr)),
        ∀ v ∈ trace.data.map (fun x => npSign (x - thr)), u = v := by
      intro thr u hu v hv
      obtain ⟨xu, hxu, rfl⟩ := List.mem_map.mp hu
      obtain ⟨xv, hxv, rfl⟩ := List.mem_map.mp hv
      rw [hconst xu hxu xv hxv]
    have hdz : ∀ thr, ∀ d ∈ npDiff (trace.data.map
        (fun x => npSign (x - thr))), d = 0 :=
      fun thr => npDiff_all_zero (hsigns thr)
    constructor
    · rw [get_rising_frames_from_ttl, if_neg hnot]
      simp only [Except.ok.injEq]
      rw [npWhere_all_zero (by decide) (hdz _)]
      rfl
    · rw [get_falling_frames_from_ttl, if_neg hnot]
      simp only [Except.ok.injEq]
      rw [npWhere_all_zero (by decide) (hdz _)]
      rfl
  · intro hsh
    constructor
    · exact ⟨_, by rw [get_rising_frames_from_ttl, if_pos hsh]⟩
    · exact ⟨_, by rw [get_falling_frames_from_ttl, if_pos hsh]⟩

/-- Witness for C10: the trace `[0,1,0,1]` of shape `[4]` (default mean
threshold) yields rising frames `[1,3]` and falling frames `[2]`, which
satisfy the bounds and ordering; a trace of shape `[2,2]` is rejected. -/
theorem ttl_frames_spec_witness :
    ((∀ i ∈ [1, 3], 1 ≤ i ∧
        i ≤ (NdArray.mk [4] [0, 1, 0, 1]).shape.headD 0 - 1) ∧
      ([1, 3] : List Nat).Pairwise (· < ·)) ∧
    ((∀ i ∈ [2], 1 ≤ i ∧
        i ≤ (NdArray.mk [4] [0, 1, 0, 1]).shape.headD 0 - 1) ∧
      ([2] : List Nat).Pairwise (· < ·)) ∧
    (∃ e, get_rising_frames_from_ttl (NdArray.mk [2, 2] [0, 1, 0, 1]) none =
        .error e) ∧
    (get_rising_frames_from_ttl (NdArray.mk [4] [3, 3, 3, 3]) none = .ok []) ∧
    (get_falling_frames_from_ttl (NdArray.mk [4] [3, 3, 3, 3]) none =
      .ok []) := by
  refine ⟨?_, ?_, ?_, ?_, ?_⟩
  · exact (ttl_frames_spec (NdArray.mk [4] [0, 1, 0, 1]) none).1
      (by decide) (by decide) (by decide) [1, 3]
      (.inl (by norm_num [get_rising_frames_from_ttl, npMean, npSign,
        npDiff, npWhere, List.range_succ]))
  · exact (ttl_frames_spec (NdArray.mk [4] [0, 1, 0, 1]) none).1
      (by decide) (by decide) (by decide) [2]
      (.inr (by norm_num [get_falling_frames_from_ttl, npMean, npSign,
        npDiff, npWhere, List.range_succ]))
  · exact ((ttl_frames_spec (NdArray.mk [2, 2] [0, 1, 0, 1]) none).2.2
      (by decide)).1
  · exact ((ttl_frames_spec (NdArray.mk [4] [3, 3, 3, 3]) none).2.1
      (by decide) (by simp)).1
  · exact ((ttl_frames_spec (NdArray.mk [4] [3, 3, 3, 3]) none).2.1
      (by decide) (by simp)).2

/-! ## Claim theorems: converter metadata determinism (C1) -/

/-- Counterexample for C1: `uuid.uuid4()` draws a fresh unique identifier at
every `get_metadata` call, so two calls on converters built from the same
input realize distinct identifier draws, and the merged metadata trees
differ at the `NWBFile.identifier` leaf. -/
theorem converter_get_metadata_not_deterministic :
    converter_get_metadata ["11111111-1111-1111-1111-111111111111"] ≠
      converter_get_metadata ["22222222-2222-2222-2222-222222222222"] := by
  intro h
  have h2 := congrArg
    (fun j => (Json.get? j "NWBFile").bind (fun n => Json.get? n "identifier"))
    h
  have h3 : (some (Json.str "11111111-1111-1111-1111-111111111111") :
      Option Json) = some (Json.str "22222222-2222-2222-2222-222222222222") :=
    h2
  injection h3 with h4
  injection h4 with h5
  exact absurd h5 (by decide)

/-- C1 amended: the merged metadata is deterministic given the identifier
values drawn by the interfaces' `uuid.uuid4()` calls — converters built from
the same input whose `get_metadata` calls draw equal identifiers produce
byte-identical merged metadata trees. -/
theorem converter_get_metadata_deterministic (ids1 ids2 : List String)
    (h : ids1 = ids2) :
    converter_get_metadata ids1 = converter_get_metadata ids2 := by
  rw [h]

/-- Witness for the amended C1 at a concrete identifier draw. -/
theorem converter_get_metadata_deterministic_witness :
    converter_get_metadata ["u"] = converter_get_metadata ["u"] :=
  converter_get_metadata_deterministic ["u"] ["u"] rfl

/-! ## Claim theorem: `SpikeGLXNIDQInterface.get_metadata` raises (C7) -/

/-- C7 (code behavior): `SpikeGLXNIDQInterface.get_metadata` never returns a
metadata mapping — line 74 rebinds `metadata` to `{"Ecephys": {}}` and lines
85/87 index the absent `"Synchronization"` key (or line 79's `pop` raises
first), so every call raises. -/
theorem nidq_get_metadata_always_raises :
    ∀ (super_metadata : Except String Json) (session_start_time : Option Json)
      (meta : List (String × Json)),
      ∃ e, nidq_get_metadata super_metadata session_start_time meta =
        .error e := by
  intro sm sst meta
  cases sm with
  | error e => exact ⟨e, rfl⟩
  | ok j =>
      by_cases h1 : (meta.lookup "niDev1ProductName").isSome
      · by_cases h2 : (meta.lookup "fileCreateTime").isNone
        · exact ⟨"KeyError: fileCreateTime",
            by simp [nidq_get_metadata, h1, h2, Json.get?]⟩
        · exact ⟨"KeyError: Synchronization",
            by simp [nidq_get_metadata, h1, h2, Json.get?, List.lookup]⟩
      · exact ⟨"KeyError: Synchronization",
          by simp [nidq_get_metadata, h1, Json.get?, List.lookup]⟩

/-! ## Claim theorems: converter orchestration -/

/-- C4: requesting persistence to a file path (`save_to_file=True`,
`nwbfile_path` given) while also supplying an in-memory container fails the
line 157-161 assertion: a configuration error raised before any interface's
`run_conversion` is invoked (empty call trace) and before the output
resource is acquired. -/
theorem run_conversion_path_and_container_conflict :
    ∀ (c : ConverterModel) (path : String) (metadata : Option Json)
      (f : NWBFileModel) (overwrite : Bool) (conversion_options : Option Json)
      (pathExists : Bool) (existing : NWBFileModel),
      run_conversion c (some path) metadata (some f) overwrite true
        conversion_options pathExists existing =
        ⟨.error .assertionError, [], false, false⟩ :=
  fun _ _ _ _ _ _ _ _ => rfl

/-- C2 (code behavior at the failing input): with one registered interface
whose default conversion options are `{"stub_test": true}` and no
caller-supplied options, the in-memory (`save_to_file=False`) branch invokes
the interface with `{}` — the raw caller options of line 190 — even though
the merged (and validated) options are `{"stub_test": true}`, which the
persist branch does pass. -/
theorem run_conversion_inmemory_drops_default_options :
    (run_conversion spyConverter none (some (.obj [])) (some ⟨.obj [], []⟩)
        false false none false ⟨.obj [], []⟩).calls =
      [("Spy", Json.obj [])] ∧
    dict_deep_update
        (Json.obj (spyConverter.interfaces.map
          (fun p => (p.1, p.2.conversionOptions))))
        (Json.obj []) =
      Json.obj [("Spy", Json.obj [("stub_test", Json.bool true)])] ∧
    (run_conversion spyConverter (some "out.nwb") (some (.obj [])) none
        false true none false ⟨.obj [], []⟩).calls =
      [("Spy", Json.obj [("stub_test", Json.bool true)])] :=
  ⟨rfl, rfl, rfl⟩

/-- Counterexample for C3: a successful persist-mode `run_conversion`
returns `None` (line 191 returns the `nwbfile` parameter, which the line
157-161 assertion forces to be `None` in persist mode), and the returned
value is identical for two different output paths — so the return value is
not the output path. -/
theorem run_conversion_persist_returns_none :
    (run_conversion spyConverter (some "a.nwb") (some (.obj [])) none false
        true none false ⟨.obj [], []⟩).ret = .ok none ∧
    run_conversion spyConverter (some "a.nwb") (some (.obj [])) none false
        true none false ⟨.obj [], []⟩ =
      run_conversion spyConverter (some "b.nwb") (some (.obj [])) none false
        true none false ⟨.obj [], []⟩ :=
  ⟨rfl, rfl⟩

/-- C3 amended: a `run_conversion` that returns normally returns `None` in
persist mode, and in non-persist mode returns the in-memory container into
which the interfaces wrote (the loop-threaded final container). -/
theorem run_conversion_return_value :
    ∀ (c : ConverterModel) (nwbfile_path : Option String) (md : Option Json)
      (f : Option NWBFileModel) (ow : Bool) (co : Option Json)
      (pe : Bool) (ex : NWBFileModel),
      (∀ v, (run_conversion c nwbfile_path md f ow true co pe ex).ret =
          .ok v → v = none) ∧
      (∀ v, (run_conversion c nwbfile_path md f ow false co pe ex).ret =
          .ok v →
        ∃ nf, v = some nf ∧
          (run_conversion_loop c.interfaces
            (f.getD (make_nwbfile_from_metadata (md.getD c.defaultMetadata)))
            (md.getD c.defaultMetadata)
            (fun n => ((co.getD (Json.obj [])).get? n).getD
              (Json.obj []))).1 = .ok nf) := by
  intro c np md f ow co pe ex
  constructor
  · intro v hv
    rcases f with _ | f0
    · unfold run_conversion at hv
      rw [if_neg (by simp)] at hv
      dsimp only at hv
      by_cases hmv : c.metadataValid (md.getD c.defaultMetadata)
      · rw [if_neg (by simp [hmv])] at hv
        by_cases hov : c.optionsValid (dict_deep_update
            (Json.obj (c.interfaces.map (fun p => (p.1, p.2.conversionOptions))))
            (co.getD (Json.obj [])))
        · rw [if_neg (by simp [hov]), if_pos rfl] at hv
          split at hv
          · exact absurd hv (by simp)
          · exact (Except.ok.inj hv).symm
        · rw [if_pos (by simp [hov])] at hv
          exact absurd hv (by simp)
      · rw [if_pos (by simp [hmv])] at hv
        exact absurd hv (by simp)
    · have hrun : run_conversion c np md (some f0) ow true co pe ex =
          ⟨.error .assertionError, [], false, false⟩ := rfl
      rw [hrun] at hv
      exact absurd hv (by simp)
  · intro v hv
    unfold run_conversion at hv
    split at hv
    · exact absurd hv (by simp)
    · dsimp only at hv
      by_cases hmv : c.metadataValid (md.getD c.defaultMetadata)
      · rw [if_neg (by simp [hmv])] at hv
        by_cases hov : c.optionsValid (dict_deep_update
            (Json.obj (c.interfaces.map (fun p => (p.1, p.2.conversionOptions))))
            (co.getD (Json.obj [])))
        · rw [if_neg (by simp [hov]), if_neg (by simp)] at hv
          split at hv
          · exact absurd hv (by simp)
          · next nwbFinal calls heq =>
              refine ⟨nwbFinal, (Except.ok.inj hv).symm, ?_⟩
              rw [heq]
        · rw [if_pos (by simp [hov])] at hv
          exact absurd hv (by simp)
      · rw [if_pos (by simp [hmv])] at hv
        exact absurd hv (by simp)

/-- Witness for the amended C3: a concrete persist-mode run returns `None`,
and a concrete in-memory run returns the container holding the spy's
write. -/
theorem run_conversion_return_value_witness :
    (none : Option NWBFileModel) = none ∧
    ∃ nf, (some (⟨Json.obj [], [("Spy", Json.obj [])]⟩ : NWBFileModel)) =
        some nf ∧
      (run_conversion_loop spyConverter.interfaces ⟨Json.obj [], []⟩
        (Json.obj [])
        (fun n => ((Json.obj []).get? n).getD (Json.obj []))).1 = .ok nf :=
  ⟨(run_conversion_return_value spyConverter (some "a.nwb") (some (.obj []))
      none false none false ⟨.obj [], []⟩).1 none rfl,
   (run_conversion_return_value spyConverter none (some (.obj []))
      (some ⟨.obj [], []⟩) false none false ⟨.obj [], []⟩).2
      (some ⟨Json.obj [], [("Spy", Json.obj [])]⟩) rfl⟩

/-- The interface loop stops at the first raising interface: an error
outcome decomposes the registered list into the successful prefix, the
failing interface, and an uninvoked suffix, with the call trace covering
exactly the prefix plus the failing interface. -/
lemma run_conversion_loop_error_split :
    ∀ (ifaces : List (String × DataInterface)) (nwb : NWBFileModel)
      (md : Json) (optsFor : String → Json) (e : String)
      (calls : List (String × Json)),
      run_conversion_loop ifaces nwb md optsFor = (.error e, calls) →
      ∃ pre x rest nwbx, ifaces = pre ++ x :: rest ∧
        calls = pre.map (fun p => (p.1, optsFor p.1)) ++
          [(x.1, optsFor x.1)] ∧
        x.2.run nwbx md (optsFor x.1) = .error e := by
  intro ifaces
  induction ifaces with
  | nil =>
      intro nwb md optsFor e calls h
      exact absurd h (by simp [run_conversion_loop])
  | cons p rest ih =>
      intro nwb md optsFor e calls h
      obtain ⟨n, i⟩ := p
      rw [run_conversion_loop] at h
      cases hrun : i.run nwb md (optsFor n) with
      | error e' =>
          rw [hrun] at h
          obtain ⟨h1, h2⟩ := Prod.mk.injEq .. ▸ h
          obtain rfl := Except.error.inj h1
          exact ⟨[], (n, i), rest, nwb, rfl, by simp [h2.symm], hrun⟩
      | ok nwb' =>
          rw [hrun] at h
          dsimp only at h
          have h1 : (run_conversion_loop rest nwb' md optsFor).1 =
              .error e := by
            rw [show run_conversion_loop rest nwb' md optsFor =
              ((run_conversion_loop rest nwb' md optsFor).1,
               (run_conversion_loop rest nwb' md optsFor).2) from rfl] at h
            exact congrArg Prod.fst h
          have h2 : calls =
              (n, optsFor n) :: (run_conversion_loop rest nwb' md optsFor).2 := by
            rw [show run_conversion_loop rest nwb' md optsFor =
              ((run_conversion_loop rest nwb' md optsFor).1,
               (run_conversion_loop rest nwb' md optsFor).2) from rfl] at h
            exact (congrArg Prod.snd h).symm
          obtain ⟨pre, x, rest', nwbx, hsplit, hcalls, hx⟩ :=
            ih nwb' md optsFor e
              (run_conversion_loop rest nwb' md optsFor).2
              (by rw [← h1])
          refine ⟨(n, i) :: pre, x, rest', nwbx, by rw [hsplit]; rfl, ?_, hx⟩
          rw [h2, hcalls]
          simp

/-- C5: if, during a persist-mode run, an interface's `run_conversion`
raises, the scoped resource release still executes (the `with` block's exit
runs on every path), the resource had been acquired, and the invocation
trace covers exactly the registered interfaces up to and including the
failing one — no interface registered after it is invoked. -/
theorem run_conversion_persist_error_still_releases :
    ∀ (c : ConverterModel) (path : String) (md : Option Json)
      (f : Option NWBFileModel) (ow : Bool) (co : Option Json) (pe : Bool)
      (ex : NWBFileModel) (e : String),
      (run_conversion c (some path) md f ow true co pe ex).ret =
          .error (.interfaceError e) →
      (run_conversion c (some path) md f ow true co pe ex).released = true ∧
      (run_conversion c (some path) md f ow true co pe ex).acquired = true ∧
      ∃ pre x rest nwbx, c.interfaces = pre ++ x :: rest ∧
        (run_conversion c (some path) md f ow true co pe ex).calls.map
            Prod.fst = pre.map Prod.fst ++ [x.1] ∧
        x.2.run nwbx (md.getD c.defaultMetadata)
          (((dict_deep_update
              (Json.obj (c.interfaces.map
                (fun p => (p.1, p.2.conversionOptions))))
              (co.getD (Json.obj []))).get? x.1).getD (Json.obj [])) =
          .error e := by
  intro c path md f ow co pe ex e hret
  rcases f with _ | f0
  · by_cases hmv : c.metadataValid (md.getD c.defaultMetadata)
    · by_cases hov : c.optionsValid (dict_deep_update
          (Json.obj (c.interfaces.map (fun p => (p.1, p.2.conversionOptions))))
          (co.getD (Json.obj [])))
      · rcases hloop : run_conversion_loop c.interfaces
            (make_or_load_nwbfile pe ow (md.getD c.defaultMetadata) ex)
            (md.getD c.defaultMetadata)
            (fun n => ((dict_deep_update
              (Json.obj (c.interfaces.map
                (fun p => (p.1, p.2.conversionOptions))))
              (co.getD (Json.obj []))).get? n).getD (Json.obj [])) with
          ⟨r, calls⟩
        cases r with
        | ok w =>
            have hrun : run_conversion c (some path) md none ow true co pe
                ex = ⟨.ok none, calls, true, true⟩ := by
              unfold run_conversion
              rw [if_neg (by simp)]
              dsimp only
              rw [if_neg (by simp [hmv]), if_neg (by simp [hov]),
                if_pos rfl, hloop]
            rw [hrun] at hret
            exact absurd hret (by simp)
        | error e' =>
            have hrun : run_conversion c (some path) md none ow true co pe
                ex = ⟨.error (.interfaceError e'), calls, true, true⟩ := by
              unfold run_conversion
              rw [if_neg (by simp)]
              dsimp only
              rw [if_neg (by simp [hmv]), if_neg (by simp [hov]),
                if_pos rfl, hloop]
            rw [hrun] at hret
            have he : e' = e := by
              have h1 := Except.error.inj hret
              injection h1
            rw [he] at hloop
            rw [hrun]
            refine ⟨rfl, rfl, ?_⟩
            obtain ⟨pre, x, rest, nwbx, hsplit, hcalls, hx⟩ :=
              run_conversion_loop_error_split c.interfaces _ _ _ e calls hloop
            refine ⟨pre, x, rest, nwbx, hsplit, ?_, hx⟩
            dsimp only
            rw [hcalls]
            simp
      · have hrun : run_conversion c (some path) md none ow true co pe ex =
            ⟨.error .optionsValidationError, [], false, false⟩ := by
          unfold run_conversion
          rw [if_neg (by simp)]
          dsimp only
          rw [if_neg (by simp [hmv]), if_pos (by simp [hov])]
        rw [hrun] at hret
        exact absurd hret (by simp)
    · have hrun : run_conversion c (some path) md none ow true co pe ex =
          ⟨.error .metadataValidationError, [], false, false⟩ := by
        unfold run_conversion
        rw [if_neg (by simp)]
        dsimp only
        rw [if_pos (by simp [hmv])]
      rw [hrun] at hret
      exact absurd hret (by simp)
  · have hrun : run_conversion c (some path) md (some f0) ow true co pe ex =
        ⟨.error .assertionError, [], false, false⟩ := rfl
    rw [hrun] at hret
    exact absurd hret (by simp)

/-- Witness for C5: a three-interface persist run where the second interface
raises still releases the acquired resource, and its trace stops at the
failing interface. -/
theorem run_conversion_persist_error_still_releases_witness :
    (run_conversion midFailConverter (some "o.nwb") (some (.obj [])) none
        false true none false ⟨.obj [], []⟩).released = true ∧
    (run_conversion midFailConverter (some "o.nwb") (some (.obj [])) none
        false true none false ⟨.obj [], []⟩).acquired = true ∧
    ∃ pre x rest nwbx, midFailConverter.interfaces = pre ++ x :: rest ∧
      (run_conversion midFailConverter (some "o.nwb") (some (.obj [])) none
          false true none false ⟨.obj [], []⟩).calls.map Prod.fst =
        pre.map Prod.fst ++ [x.1] ∧
      x.2.run nwbx (Json.obj [])
        (((Json.obj [("A", Json.obj []), ("B", Json.obj []),
            ("C", Json.obj [])]).get? x.1).getD (Json.obj [])) =
        .error "boom" :=
  run_conversion_persist_error_still_releases midFailConverter "o.nwb"
    (some (.obj [])) none false none false ⟨.obj [], []⟩ "boom" rfl

/-- The names instantiated by the constructor comprehension are exactly the
registered class names that appear in the source descriptor, in class-map
order. -/
lemma converter_init_names (classes : List (String × (Json → DataInterface)))
    (source_data : List (String × Json)) :
    ((classes.filterMap (fun p => (source_data.lookup p.1).map
        (fun args => (p.1, p.2 args)))).map Prod.fst) =
      (classes.map Prod.fst).filter
        (fun n => (source_data.lookup n).isSome) := by
  induction classes with
  | nil => rfl
  | cons p rest ih =>
      obtain ⟨k, cls⟩ := p
      cases h : source_data.lookup k with
      | none => simp [List.filterMap_cons, h, List.filter_cons, ih]
      | some a => simp [List.filterMap_cons, h, List.filter_cons, ih]

/-- C6: the constructor validates the source descriptor first — on failure
it raises `SourceValidationError` having constructed no interface; on
success it instantiates exactly one data interface per descriptor entry
whose name has a registered class (given the class map's names are unique,
as Python dict keys are), and no name outside the registered class map
reaches instantiation. -/
theorem converter_init_spec :
    ∀ (classes : List (String × (Json → DataInterface)))
      (validate : Json → Bool) (source_data : List (String × Json))
      (name : String),
      (validate (.obj source_data) = false →
        converter_init classes validate source_data =
          .error .sourceValidationError) ∧
      (∀ l, converter_init classes validate source_data = .ok l →
        ((classes.map Prod.fst).Nodup →
          (l.map Prod.fst).count name =
            if (source_data.lookup name).isSome ∧
                name ∈ classes.map Prod.fst then 1 else 0) ∧
        (name ∈ l.map Prod.fst → name ∈ classes.map Prod.fst)) := by
  intro classes validate source_data name
  constructor
  · intro hval
    unfold converter_init
    rw [if_pos (by simp [hval])]
  · intro l hl
    have hnames : l.map Prod.fst =
        (classes.map Prod.fst).filter
          (fun n => (source_data.lookup n).isSome) := by
      unfold converter_init at hl
      split at hl
      · exact absurd hl (by simp)
      · rw [← Except.ok.inj hl]
        exact converter_init_names classes source_data
    constructor
    · intro hnodup
      rw [hnames]
      by_cases hs : (source_data.lookup name).isSome
      · by_cases hm : name ∈ classes.map Prod.fst
        · rw [if_pos ⟨hs, hm⟩]
          have hmem : name ∈ (classes.map Prod.fst).filter
              (fun n => (source_data.lookup n).isSome) :=
            List.mem_filter.mpr ⟨hm, by simp [hs]⟩
          exact List.count_eq_one_of_mem (hnodup.filter _) hmem
        · rw [if_neg (by tauto)]
          exact List.count_eq_zero_of_not_mem
            (fun hmem => hm (List.mem_filter.mp hmem).1)
      · rw [if_neg (by tauto)]
        exact List.count_eq_zero_of_not_mem
          (fun hmem => hs (by simpa using (List.mem_filter.mp hmem).2))
    · intro hmem
      rw [hnames] at hmem
      exact (List.mem_filter.mp hmem).1

/-- Witness for C6: a failing validator yields the validation error; with a
passing validator, classes `A`,`B` and descriptor entry `A` instantiate
exactly one `A` and zero `B`, and every instantiated name is registered. -/
theorem converter_init_spec_witness :
    (converter_init [("A", fun _ : Json => okInterface)] (fun _ => false) [] =
      .error .sourceValidationError) ∧
    (([("A", okInterface)].map Prod.fst).count "A" =
      if (([("A", Json.obj [])].lookup "A").isSome ∧
          "A" ∈ ([("A", fun _ : Json => okInterface),
            ("B", fun _ : Json => okInterface)].map Prod.fst)) then 1 else 0) ∧
    (([("A", okInterface)].map Prod.fst).count "B" =
      if (([("A", Json.obj [])].lookup "B").isSome ∧
          "B" ∈ ([("A", fun _ : Json => okInterface),
            ("B", fun _ : Json => okInterface)].map Prod.fst)) then 1 else 0) ∧
    ("A" ∈ [("A", okInterface)].map Prod.fst →
      "A" ∈ ([("A", fun _ : Json => okInterface),
        ("B", fun _ : Json => okInterface)].map Prod.fst)) :=
  ⟨(converter_init_spec [("A", fun _ : Json => okInterface)] (fun _ => false) []
      "A").1 rfl,
   ((converter_init_spec [("A", fun _ : Json => okInterface),
        ("B", fun _ : Json => okInterface)] (fun _ => true) [("A", Json.obj [])]
      "A").2 [("A", okInterface)] rfl).1 (by simp),
   ((converter_init_spec [("A", fun _ : Json => okInterface),
        ("B", fun _ : Json => okInterface)] (fun _ => true) [("A", Json.obj [])]
      "B").2 [("A", okInterface)] rfl).1 (by simp),
   ((converter_init_spec [("A", fun _ : Json => okInterface),
        ("B", fun _ : Json => okInterface)] (fun _ => true) [("A", Json.obj [])]
      "A").2 [("A", okInterface)] rfl).2⟩
